import Mathlib

/-!
Verification development for the FinAI transaction-intake application.

The embedding below follows the TypeScript sources:
* `types.ts` — the shared data model (`Transaction`, `Budget`, `Goal`,
  `ChatMessage`, `FinancialSummary`);
* `services/dataService.ts` — the localStorage-backed record store
  (`DataService.*`, `seedData`) and the aggregation engine
  (`DataService.calculateSummary`);
* `services/geminiService.ts` — the AI collaborator wrappers, modelled with
  their external call outcome supplied as an explicit argument;
* `App.tsx` — the conversational orchestrator (`handleSendMessage`);
* `components/ChatInterface.tsx` — the audio capture and playback machinery
  (`playAudio`, `stopAudio`, `startRecording`, `stopRecording`).

Conventions of the embedding:
* JS `number` amounts are embedded as `ℚ` (exact arithmetic, no float
  rounding); `Math.round` is `round : ℚ → ℤ`, which rounds halves toward
  positive infinity exactly as JS `Math.round` does.
* ISO timestamps are embedded as minutes since the Unix epoch (`ℤ`).  The
  `"YYYY-MM-DD"` day key produced by `toISOString().split('T')[0]` is the
  UTC epoch-day number `date.fdiv 1440`; lexicographic order on the key
  strings coincides with numeric order on these integers for all dates in
  the four-digit-year range the application handles.
* JS objects used as string-keyed accumulator maps (`Record<string,number>`)
  are embedded as association lists in insertion order, which is exactly the
  `Object.keys` enumeration order for the non-index keys used here.
* `localStorage` is embedded as one `Option`-valued cell per storage key
  (`none` = key absent); every value the app writes is `JSON.stringify`
  output, a non-empty string, so JS truthiness of `getItem` coincides with
  key presence.
-/

namespace FinAI

/-- `TransactionType` from types.ts. -/
inductive TransactionType where
  | EXPENSE
  | INCOME
  deriving DecidableEq

/-- `Transaction` from types.ts.  `date` is the ISO timestamp in epoch
minutes.  The TS field `description` is declared `string`, but the
orchestrator's `parsedTransaction as Transaction` cast can smuggle in
`undefined`, so the embedding keeps it optional; `merchant` and
`paymentMethod` are optional in the source as well and never read, so they
are omitted. -/
structure Transaction where
  id : String
  date : ℤ
  type : TransactionType
  amount : ℚ
  category : String
  description : Option String
  deriving DecidableEq

/-- Budget period tag from types.ts. -/
inductive BudgetPeriod where
  | MONTHLY
  | WEEKLY
  | YEARLY
  deriving DecidableEq

/-- `Budget` from types.ts (`spent?` is an optional calculated field). -/
structure Budget where
  id : String
  category : String
  limit : ℚ
  period : BudgetPeriod
  spent : Option ℚ := none
  deriving DecidableEq

/-- `Goal` from types.ts. -/
structure Goal where
  id : String
  name : String
  targetAmount : ℚ
  currentAmount : ℚ
  deadline : Option String := none
  deriving DecidableEq

/-- Chat roles from types.ts. -/
inductive ChatRole where
  | user
  | assistant
  | system
  deriving DecidableEq

/-- `ChatMessage` from types.ts. -/
structure ChatMessage where
  id : String
  role : ChatRole
  content : String
  timestamp : ℤ
  relatedTransactionId : Option String := none
  deriving DecidableEq

/-- An `expensesByCategory` entry (`{ name, value }`). -/
structure CategoryEntry where
  name : String
  value : ℚ
  deriving DecidableEq

/-- A `monthlyCashflow` entry (`{ name, income, expense }`). -/
structure MonthEntry where
  name : String
  income : ℚ
  expense : ℚ
  deriving DecidableEq

/-- A `dailyExpenses` entry (`{ date, originalDate, amount }`): `date` is
the `dd/mm` display label and `originalDate` the raw sortable ISO day key,
embedded as the UTC epoch-day number. -/
structure DailyEntry where
  date : String
  originalDate : ℤ
  amount : ℚ
  deriving DecidableEq

/-- `FinancialSummary` from types.ts. -/
structure FinancialSummary where
  totalIncome : ℚ
  totalExpense : ℚ
  balance : ℚ
  expensesByCategory : List CategoryEntry
  monthlyCashflow : List MonthEntry
  dailyExpenses : List DailyEntry
  deriving DecidableEq

/-! ### Calendar helpers

`toISOString` / `toLocaleString` date handling, on epoch-day numbers.
The conversions implement the standard proleptic-Gregorian civil-date
algorithms; only their executability matters to the claims. -/

/-- Convert an epoch-day number to the civil `(year, month, day)` triple. -/
def civilFromDays (z0 : ℤ) : ℤ × ℤ × ℤ :=
  let z := z0 + 719468
  let era := z.fdiv 146097
  let doe := z - era * 146097
  let yoe := (doe - doe.fdiv 1460 + doe.fdiv 36524 - doe.fdiv 146096).fdiv 365
  let y := yoe + era * 400
  let doy := doe - (365 * yoe + yoe.fdiv 4 - yoe.fdiv 100)
  let mp := (5 * doy + 2).fdiv 153
  let d := doy - (153 * mp + 2).fdiv 5 + 1
  let m := if mp < 10 then mp + 3 else mp - 9
  (if m ≤ 2 then y + 1 else y, m, d)

/-- Convert a civil date to its epoch-day number. -/
def daysFromCivil (y0 m d : ℤ) : ℤ :=
  let y := if m ≤ 2 then y0 - 1 else y0
  let era := y.fdiv 400
  let yoe := y - era * 400
  let mp := if 2 < m then m - 3 else m + 9
  let doy := (153 * mp + 2).fdiv 5 + d - 1
  let doe := yoe * 365 + yoe.fdiv 4 - yoe.fdiv 100 + doy
  era * 146097 + doe - 719468

/-- Two-digit rendering of a day or month number, as in the `"YYYY-MM-DD"`
key the code splits apart. -/
def pad2 (n : ℤ) : String :=
  if 0 ≤ n ∧ n < 10 then "0" ++ toString n else toString n

/-- The `dd/mm` display label built from the ISO day key
(Dashboard.tsx, `date: ${day}/${month}`). -/
def dayLabel (k : ℤ) : String :=
  let c := civilFromDays k
  pad2 c.2.2 ++ "/" ++ pad2 c.2.1

/-- pt-BR short month names, as produced by
`toLocaleString('pt-BR', { month: 'short' })`. -/
def monthShort (m : ℤ) : String :=
  ([ "jan.", "fev.", "mar.", "abr.", "mai.", "jun.",
     "jul.", "ago.", "set.", "out.", "nov.", "dez." ].getD (m - 1).toNat "")

/-- The UTC ISO day key of a transaction
(`new Date(t.date).toISOString().split('T')[0]`). -/
def dayKey (t : Transaction) : ℤ := t.date.fdiv 1440

/-- The month grouping key of a transaction
(`date.toLocaleString('pt-BR', { month: 'short' })`); `toLocaleString`
renders the date in the environment's local time zone, so the key depends
on the zone offset `offset` (minutes east of UTC). -/
def monthKey (offset : ℤ) (t : Transaction) : String :=
  monthShort (civilFromDays ((t.date + offset).fdiv 1440)).2.1

/-! ### Association-list embedding of `Record<string, T>` accumulators -/

/-- Lookup in an insertion-ordered association list (`map[k]`). -/
def alookup {κ β : Type} [DecidableEq κ] (k : κ) : List (κ × β) → Option β
  | [] => none
  | (k', v) :: rest => if k' = k then some v else alookup k rest

/-- `map[k] = (map[k] || 0) + v`: update in place when the key exists,
append at the end otherwise (JS object insertion order). -/
def upsertAdd {κ : Type} [DecidableEq κ] (k : κ) (v : ℚ) :
    List (κ × ℚ) → List (κ × ℚ)
  | [] => [(k, v)]
  | (k', v') :: rest =>
      if k' = k then (k', v' + v) :: rest else (k', v') :: upsertAdd k v rest

/-- `if (!monthlyData[mk]) monthlyData[mk] = { income: 0, expense: 0 }`. -/
def monthInit (k : String) (m : List (String × (ℚ × ℚ))) :
    List (String × (ℚ × ℚ)) :=
  if (alookup k m).isSome then m else m ++ [(k, (0, 0))]

/-- `monthlyData[mk].income += v` (`isInc = true`) or
`monthlyData[mk].expense += v` (`isInc = false`). -/
def monthAdd (isInc : Bool) (k : String) (v : ℚ)
    (m : List (String × (ℚ × ℚ))) : List (String × (ℚ × ℚ)) :=
  m.map fun p =>
    if p.1 = k then
      (p.1, if isInc then (p.2.1 + v, p.2.2) else (p.2.1, p.2.2 + v))
    else p

/-- JS `Array.prototype.findIndex`, with `-1` embedded as `none`. -/
def findIndex {α : Type} (p : α → Bool) : List α → Option ℕ
  | [] => none
  | a :: l => if p a then some 0 else (findIndex p l).map (· + 1)

/-! ### The aggregation engine (`DataService.calculateSummary`) -/

/-- The mutable accumulators of the `transactions.forEach` loop. -/
structure SummaryAcc where
  totalIncome : ℚ
  totalExpense : ℚ
  categoryMap : List (String × ℚ)
  monthlyData : List (String × (ℚ × ℚ))
  dailyData : List (ℤ × ℚ)

/-- One iteration of the `forEach` body in `calculateSummary`
(Dashboard.tsx data service, lines 793-811). -/
def summaryStep (offset : ℤ) (acc : SummaryAcc) (t : Transaction) :
    SummaryAcc :=
  let mk := monthKey offset t
  let acc1 := { acc with monthlyData := monthInit mk acc.monthlyData }
  match t.type with
  | .INCOME =>
      { acc1 with
        totalIncome := acc1.totalIncome + t.amount
        monthlyData := monthAdd true mk t.amount acc1.monthlyData }
  | .EXPENSE =>
      { acc1 with
        totalExpense := acc1.totalExpense + t.amount
        monthlyData := monthAdd false mk t.amount acc1.monthlyData
        categoryMap := upsertAdd t.category t.amount acc1.categoryMap
        dailyData := upsertAdd (dayKey t) t.amount acc1.dailyData }

/-- `DataService.calculateSummary`, as a pure function of the transaction
collection it fetches; `offset` is the environment's local-time zone offset
in minutes east of UTC (it only feeds `toLocaleString`, i.e. the monthly
grouping key). -/
def calculateSummary (offset : ℤ) (transactions : List Transaction) :
    FinancialSummary :=
  let acc := transactions.foldl (summaryStep offset) ⟨0, 0, [], [], []⟩
  let expensesByCategory := acc.categoryMap.map fun p => ⟨p.1, p.2⟩
  let monthlyCashflow := acc.monthlyData.map fun p => ⟨p.1, p.2.1, p.2.2⟩
  let sortedKeys := List.insertionSort (· ≤ ·) (acc.dailyData.map Prod.fst)
  let dailyExpenses :=
    sortedKeys.map fun k => ⟨dayLabel k, k, (alookup k acc.dailyData).getD 0⟩
  { totalIncome := acc.totalIncome
    totalExpense := acc.totalExpense
    balance := acc.totalIncome - acc.totalExpense
    expensesByCategory := expensesByCategory
    monthlyCashflow := monthlyCashflow
    dailyExpenses := dailyExpenses }

/-! ### The record store (`DataService` over localStorage) -/

/-- The three localStorage cells behind `STORAGE_KEYS`; `none` embeds an
absent key.  All values the app ever stores are `JSON.stringify` output of
the typed collections, so each cell holds a decoded collection. -/
structure Store where
  transactions : Option (List Transaction)
  budgets : Option (List Budget)
  goals : Option (List Goal)
  deriving DecidableEq

/-- `DataService.getTransactions` (`data ? JSON.parse(data) : []`). -/
def getTransactions (s : Store) : List Transaction :=
  s.transactions.getD []

/-- `DataService.addTransaction`. -/
def addTransaction (t : Transaction) (s : Store) : Store :=
  { s with transactions := some (getTransactions s ++ [t]) }

/-- `DataService.updateTransaction`: replace at `findIndex` when the id is
found, otherwise do not touch the storage at all. -/
def updateTransaction (t : Transaction) (s : Store) : Store :=
  match findIndex (fun u => u.id = t.id) (getTransactions s) with
  | some i => { s with transactions := some ((getTransactions s).set i t) }
  | none => s

/-- `DataService.deleteTransaction`. -/
def deleteTransaction (id : String) (s : Store) : Store :=
  { s with transactions := some ((getTransactions s).filter (·.id ≠ id)) }

/-- `DataService.getBudgets`. -/
def getBudgets (s : Store) : List Budget :=
  s.budgets.getD []

/-- `DataService.addBudget`. -/
def addBudget (b : Budget) (s : Store) : Store :=
  { s with budgets := some (getBudgets s ++ [b]) }

/-- `DataService.updateBudget`. -/
def updateBudget (b : Budget) (s : Store) : Store :=
  match findIndex (fun u => u.id = b.id) (getBudgets s) with
  | some i => { s with budgets := some ((getBudgets s).set i b) }
  | none => s

/-- `DataService.deleteBudget`. -/
def deleteBudget (id : String) (s : Store) : Store :=
  { s with budgets := some ((getBudgets s).filter (·.id ≠ id)) }

/-- `DataService.getGoals`. -/
def getGoals (s : Store) : List Goal :=
  s.goals.getD []

/-- `DataService.addGoal`. -/
def addGoal (g : Goal) (s : Store) : Store :=
  { s with goals := some (getGoals s ++ [g]) }

/-- `DataService.updateGoal`. -/
def updateGoal (g : Goal) (s : Store) : Store :=
  match findIndex (fun u => u.id = g.id) (getGoals s) with
  | some i => { s with goals := some ((getGoals s).set i g) }
  | none => s

/-- `DataService.deleteGoal`. -/
def deleteGoal (id : String) (s : Store) : Store :=
  { s with goals := some ((getGoals s).filter (·.id ≠ id)) }

/-- `DataService.resetData`: overwrite all three keys with empty arrays
(not `removeItem`), so a later `seedData` run sees the keys as present. -/
def resetData (_s : Store) : Store :=
  { transactions := some [], budgets := some [], goals := some [] }

/-- The seed transactions (`const today = new Date()` gives the 0-based
month `m0` of year `y`; each seed date is local midnight of the given day
of that month). -/
def seedTransactions (y m0 : ℤ) : List Transaction :=
  let day := fun d => 1440 * daysFromCivil y (m0 + 1) d
  [ ⟨"1", day 5, .INCOME, 5000, "Salário", some "Salário Mensal"⟩,
    ⟨"2", day 6, .EXPENSE, 120, "Contas", some "Conta de Luz"⟩,
    ⟨"3", day 8, .EXPENSE, 65, "Alimentação", some "Jantar no Mario\x27s"⟩,
    ⟨"4", day 10, .EXPENSE, 200, "Transporte", some "Uber"⟩,
    ⟨"5", day 12, .EXPENSE, 450, "Alimentação", some "Compras do Mês"⟩,
    ⟨"6", day 15, .EXPENSE, 150, "Lazer", some "Cinema e Pipoca"⟩ ]

/-- The seed budgets. -/
def seedBudgets : List Budget :=
  [ ⟨"1", "Alimentação", 800, .MONTHLY, none⟩,
    ⟨"2", "Transporte", 400, .MONTHLY, none⟩,
    ⟨"3", "Lazer", 300, .MONTHLY, none⟩ ]

/-- The seed goals. -/
def seedGoals : List Goal :=
  [ ⟨"1", "Viagem Europa", 5000, 1500, some "2024-12-31"⟩,
    ⟨"2", "Reserva de Emergência", 10000, 8000, none⟩ ]

/-- `seedData` from the data service: each collection is seeded only when
its key is absent (`!localStorage.getItem(key)`; every stored value is
non-empty JSON, so truthiness is key presence). -/
def seedData (y m0 : ℤ) (s : Store) : Store :=
  { transactions :=
      match s.transactions with
      | some v => some v
      | none => some (seedTransactions y m0)
    budgets :=
      match s.budgets with
      | some v => some v
      | none => some seedBudgets
    goals :=
      match s.goals with
      | some v => some v
      | none => some seedGoals }

/-! ### The parsing and advice collaborators (`GeminiService`) -/

/-- The `budgetStatus` string built by `handleSendMessage`, modelled
structurally: each constructor is one of the four template strings together
with the numbers interpolated into it.
* `overBudget overage spent percentage` —
  "ALERTA: Você estourou o orçamento em R$(overage). Total gasto:
  R$(spent) ((percentage)% do limite)."
* `withinBudget spent limit percentage remaining` —
  "Status do Orçamento: Você gastou R$(spent) de R$(limit)
  ((percentage)%). Restam: R$(remaining)."
* `incomeRecorded` — "Receita registrada. Saldo atualizado."
* `noBudget` — "Nenhum orçamento específico para esta categoria."

A percentage of `none` embeds a non-finite JS value: with a zero limit the
float division yields Infinity (or NaN), which has no integer value. -/
inductive BudgetStatusMsg where
  | noBudget
  | incomeRecorded
  | overBudget (overage spent : ℚ) (percentage : Option ℤ)
  | withinBudget (spent limit : ℚ) (percentage : Option ℤ) (remaining : ℚ)
  deriving DecidableEq

/-- A non-null `GeminiService.parseTransaction` result: the parsed JSON is
spread into an object (`Partial<Transaction>`), so every domain field may
individually be absent; `id` and `date` are always filled in by the service
itself (a missing or unparsable `date` makes `toISOString` throw, which the
service catches and turns into a null result). -/
structure ParsedTransaction where
  id : String
  date : ℤ
  type : Option TransactionType
  amount : Option ℚ
  category : Option String
  description : Option String
  deriving DecidableEq

/-- JS truthiness of `parsedTransaction.amount` (`0` is falsy). -/
def truthyAmount (p : ParsedTransaction) : Bool :=
  match p.amount with
  | some a => a ≠ 0
  | none => false

/-- JS truthiness of `parsedTransaction.category` (`""` is falsy). -/
def truthyCategory (p : ParsedTransaction) : Bool :=
  match p.category with
  | some c => c ≠ ""
  | none => false

/-- JS truthiness of `parsedTransaction.type` (both enum values are
non-empty strings, hence truthy). -/
def truthyType (p : ParsedTransaction) : Bool :=
  p.type.isSome

/-- The `if (parsedTransaction && parsedTransaction.amount &&
parsedTransaction.category && parsedTransaction.type)` guard of
`handleSendMessage`. -/
def parsedCheck : Option ParsedTransaction → Bool
  | none => false
  | some p => truthyAmount p && truthyCategory p && truthyType p

/-- The `parsedTransaction as Transaction` cast.  Under `parsedCheck` the
three `getD` defaults are never used; `description` passes through as-is,
`undefined` included. -/
def castParsed (p : ParsedTransaction) : Transaction :=
  { id := p.id
    date := p.date
    type := p.type.getD .EXPENSE
    amount := p.amount.getD 0
    category := p.category.getD ""
    description := p.description }

/-- An external advice-collaborator call outcome: `.error` embeds a thrown
or rejected call, `.ok t` a response whose `text` field is `t` (`none` when
the field is absent). -/
abbrev AdviceCollab := Transaction → BudgetStatusMsg → Except Unit (Option String)

/-- `GeminiService.generateFinancialAdvice`: returns `response.text` when
truthy, `"Transação registrada com sucesso."` when the response has no
text, and `"Transação registrada."` when the call throws. -/
def generateFinancialAdvice (collab : AdviceCollab) (t : Transaction)
    (budgetStatus : BudgetStatusMsg) : String :=
  match collab t budgetStatus with
  | .error _ => "Transação registrada."
  | .ok none => "Transação registrada com sucesso."
  | .ok (some s) => if s = "" then "Transação registrada com sucesso." else s

/-! ### The conversational orchestrator (`App.tsx`, `handleSendMessage`) -/

/-- `toLowerCase`, as the character-wise lowering of the underlying
character data (the library's `String.toLower` computes the same string
but does not kernel-reduce). -/
def strLower (s : String) : String := ⟨s.data.map Char.toLower⟩

/-- `budgets.find(b => b.category.toLowerCase() ===
newTransaction.category.toLowerCase())`. -/
def findBudget (budgets : List Budget) (cat : String) : Option Budget :=
  budgets.find? fun b => strLower b.category = strLower cat

/-- `updatedSummary.expensesByCategory.find(c => c.name ===
newTransaction.category)?.value || 0` (a stored value of `0` is falsy and
`|| 0` maps it to `0`, which coincides with the lookup default). -/
def categorySpend (summ : FinancialSummary) (cat : String) : ℚ :=
  ((summ.expensesByCategory.find? fun c => c.name = cat).map
    CategoryEntry.value).getD 0

/-- `Math.round((categorySpend / budget.limit) * 100)` under float
semantics: a zero limit makes the quotient non-finite (`Infinity`/`NaN`),
embedded as `none`; otherwise the exact rounded integer.  `Math.round`
rounds halves toward positive infinity, as `round` does. -/
def jsRoundPct (spent limit : ℚ) : Option ℤ :=
  if limit = 0 then none else some (round (spent / limit * 100))

/-- Steps 4-5 of the turn: the `budgetStatus` computation of
`handleSendMessage` (App.tsx lines 140-155), given the budget list captured
by the handler, the freshly recomputed summary, and the persisted
transaction. -/
def computeBudgetStatus (budgets : List Budget) (summ : FinancialSummary)
    (tx : Transaction) : BudgetStatusMsg :=
  match findBudget budgets tx.category with
  | some b =>
      if tx.type = .EXPENSE then
        let spent := categorySpend summ tx.category
        let percentage := jsRoundPct spent b.limit
        let remaining := b.limit - spent
        if remaining < 0 then .overBudget |remaining| spent percentage
        else .withinBudget spent b.limit percentage remaining
      else if tx.type = .INCOME then .incomeRecorded
      else .noBudget
  | none =>
      if tx.type = .INCOME then .incomeRecorded else .noBudget

/-- Whether a status message is the over-budget tier. -/
def statusIsOverBudget : BudgetStatusMsg → Bool
  | .overBudget _ _ _ => true
  | _ => false

/-- The percentage interpolated into a status message, when the tier
carries one. -/
def statusPercentage : BudgetStatusMsg → Option (Option ℤ)
  | .overBudget _ _ p => some p
  | .withinBudget _ _ p _ => some p
  | _ => none

/-- The clarification reply of the failed-parse branch. -/
def clarificationText : String :=
  "Não consegui identificar uma transação na sua mensagem. Por favor, especifique o valor, categoria e a descrição. Exemplo: \x27Gastei R$25 em Uber\x27."

/-- The per-turn environment: the `crypto.randomUUID()` and `Date.now()`
values drawn while the turn runs. -/
structure TurnEnv where
  userMsgId : String
  aiMsgId : String
  userNow : ℤ
  aiNow : ℤ

/-- The user chat bubble appended at the start of the turn. -/
def userMsgOf (env : TurnEnv) (text : String) : ChatMessage :=
  ⟨env.userMsgId, .user, text, env.userNow, none⟩

/-- `App.handleSendMessage`, one orchestrator turn.  External effects are
explicit: `parseResult` is the `GeminiService.parseTransaction` outcome,
`collab` the advice collaborator, `offset` the environment time-zone offset
used by the aggregation engine, `budgets` the budget list captured by the
handler's closure.  The returned pair is the store after the turn and the
message transcript after the turn.  (The surrounding `try/catch` and the
`isProcessing` flag are UI plumbing with no bearing on the claims: none of
the modelled steps throws.) -/
def handleSendMessage (env : TurnEnv) (offset : ℤ) (budgets : List Budget)
    (store : Store) (msgs : List ChatMessage) (text : String)
    (parseResult : Option ParsedTransaction) (collab : AdviceCollab) :
    Store × List ChatMessage :=
  let msgs1 := msgs ++ [userMsgOf env text]
  if parsedCheck parseResult then
    match parseResult with
    | some p =>
        let newTransaction := castParsed p
        let store1 := addTransaction newTransaction store
        let updatedSummary := calculateSummary offset (getTransactions store1)
        let budgetStatus := computeBudgetStatus budgets updatedSummary newTransaction
        let advice := generateFinancialAdvice collab newTransaction budgetStatus
        (store1,
          msgs1 ++ [⟨env.aiMsgId, .assistant, advice, env.aiNow,
            some newTransaction.id⟩])
    | none =>
        (store, msgs1 ++ [⟨env.aiMsgId, .assistant, clarificationText,
          env.aiNow, none⟩])
  else
    (store, msgs1 ++ [⟨env.aiMsgId, .assistant, clarificationText,
      env.aiNow, none⟩])

/-! ### The playback sub-machine (`ChatInterface.tsx`)

The state carries, besides the React refs and state hooks, the multiset
`activeNodes` of `AudioBufferSourceNode`s that have been `start`ed and
neither `stop`ped nor ended — the streams audible in the audio graph — and
the list `pendingSynth` of `generateSpeech` calls whose `await` has not
resumed yet.  Node and synthesis-call identities are drawn from counters. -/

structure PBState where
  playingId : Option String
  isPaused : Bool
  sourceNode : Option ℕ
  activeNodes : List ℕ
  pendingSynth : List ℕ
  nextTicket : ℕ
  nextNode : ℕ
  deriving DecidableEq

/-- `stopAudio`: stop and disconnect the tracked source node if any, null
the ref, clear `playingId` and `isPaused`. -/
def stopAudio (s : PBState) : PBState :=
  let s1 :=
    match s.sourceNode with
    | some n =>
        { s with activeNodes := s.activeNodes.erase n, sourceNode := none }
    | none => s
  { s1 with playingId := none, isPaused := false }

/-- The synchronous prefix of `playAudio(msgId, text)`, up to the
`await GeminiService.generateSpeech` suspension: toggle pause/resume when
the request targets the currently tracked message, otherwise stop whatever
is tracked, optimistically publish the new `playingId`, and issue the
synthesis call. -/
def playAudio (s : PBState) (msgId : String) : PBState :=
  if s.playingId = some msgId then
    if s.isPaused then { s with isPaused := false }
    else { s with isPaused := true }
  else
    let s1 := stopAudio s
    { s1 with
      playingId := some msgId
      pendingSynth := s1.pendingSynth ++ [s1.nextTicket]
      nextTicket := s1.nextTicket + 1 }

/-- The continuation of `playAudio` after its synthesis `await` resumes
(ticket `t`): with audio, create a fresh source node, start it and track
it; with a null buffer, clear `playingId`.  The continuation re-checks
nothing about the current playback state. -/
def playAudioResume (s : PBState) (t : ℕ) (hasAudio : Bool) : PBState :=
  if t ∈ s.pendingSynth then
    let s1 := { s with pendingSynth := s.pendingSynth.erase t }
    if hasAudio then
      { s1 with
        activeNodes := s1.activeNodes ++ [s1.nextNode]
        sourceNode := some s1.nextNode
        nextNode := s1.nextNode + 1 }
    else { s1 with playingId := none }
  else s

/-- The `source.onended` handler of a started node `n`: the node is no
longer audible, and the handler clears `playingId`, `isPaused` and the
ref. -/
def audioEnded (s : PBState) (n : ℕ) : PBState :=
  if n < s.nextNode then
    { s with
      activeNodes := s.activeNodes.erase n
      playingId := none
      isPaused := false
      sourceNode := none }
  else s

/-- The event alphabet of the playback machine: a user playback request
(the synchronous prefix), a synthesis call resuming, the stop button, and a
node's `ended` event. -/
inductive PBEvent where
  | request (msgId : String)
  | synth (ticket : ℕ) (hasAudio : Bool)
  | stopBtn
  | ended (n : ℕ)

/-- One scheduler step of the playback machine. -/
def pbStep (s : PBState) : PBEvent → PBState
  | .request msgId => playAudio s msgId
  | .synth t hasAudio => playAudioResume s t hasAudio
  | .stopBtn => stopAudio s
  | .ended n => audioEnded s n

/-- The initial playback state (all refs null, nothing pending). -/
def pbInit : PBState :=
  ⟨none, false, none, [], [], 0, 0⟩

/-- Run the playback machine over an event trace. -/
def pbRun (evts : List PBEvent) : PBState :=
  evts.foldl pbStep pbInit

/-! ### The capture sub-machine (`ChatInterface.tsx`) -/

/-- Recording-side state: the `isRecording`/`isTranscribing` hooks, the
`mediaRecorderRef` (recorder identities drawn from a counter), and a count
of the user-visible microphone alerts. -/
structure CapState where
  isRecording : Bool
  isTranscribing : Bool
  recorder : Option ℕ
  nextRec : ℕ
  alerts : ℕ
  deriving DecidableEq

/-- `startRecording`: when the microphone permission resolves, a fresh
`MediaRecorder` is created, stored in the ref and started, and
`isRecording` is set — with no guard against already being in the
Recording state; on denial the catch block alerts and changes nothing. -/
def startRecording (s : CapState) (permissionGranted : Bool) : CapState :=
  if permissionGranted then
    { s with
      recorder := some s.nextRec
      nextRec := s.nextRec + 1
      isRecording := true }
  else { s with alerts := s.alerts + 1 }

/-- `stopRecording`: guarded by
`if (mediaRecorderRef.current && isRecording)`. -/
def stopRecording (s : CapState) : CapState :=
  if s.recorder.isSome && s.isRecording then { s with isRecording := false }
  else s

/-- The mic button's dispatch
(`onClick={isRecording ? stopRecording : startRecording}`). -/
def micToggle (s : CapState) (permissionGranted : Bool) : CapState :=
  if s.isRecording then stopRecording s else startRecording s permissionGranted

/-! ### Spec-side reference definitions

Definitions below follow the specification's words, for comparison with the
code-derived definitions above. -/

/-- Spec §4.1: "totalIncome = sum of amounts where kind = INCOME". -/
def specIncomeSum (txs : List Transaction) : ℚ :=
  ((txs.filter fun t => t.type = TransactionType.INCOME).map
    Transaction.amount).sum

/-- Spec §4.1: "totalExpense = sum where kind = EXPENSE". -/
def specExpenseSum (txs : List Transaction) : ℚ :=
  ((txs.filter fun t => t.type = TransactionType.EXPENSE).map
    Transaction.amount).sum

/-- The summed expense amount of the transactions falling on UTC day `k`. -/
def expSumOnDay (k : ℤ) (txs : List Transaction) : ℚ :=
  ((txs.filter fun t =>
      t.type = TransactionType.EXPENSE ∧ dayKey t = k).map
    Transaction.amount).sum

/-- The local calendar day of a transaction's timestamp in a zone sitting
`offset` minutes east of UTC. -/
def localDayKey (offset : ℤ) (t : Transaction) : ℤ :=
  (t.date + offset).fdiv 1440

/-- Spec §4.1 dailyExpenses, following the spec's words: "group EXPENSE
transactions by calendar day of their timestamp (day granularity, local
date, not time), sum per day; result sorted ascending by the underlying
day key; each entry exposes both a raw sortable key and a display
label". -/
def specDailyExpensesLocal (offset : ℤ) (txs : List Transaction) :
    List DailyEntry :=
  let m := txs.foldl
    (fun m t =>
      if t.type = TransactionType.EXPENSE then
        upsertAdd (localDayKey offset t) t.amount m
      else m) []
  (List.insertionSort (· ≤ ·) (m.map Prod.fst)).map fun k =>
    ⟨dayLabel k, k, (alookup k m).getD 0⟩

/-! ### Concrete inputs used by witnesses and counterexamples -/

/-- A parse result whose `description` field is absent while `type`,
`amount` and `category` are present and truthy. -/
def cexParsed : ParsedTransaction :=
  ⟨"tx-1", 0, some .EXPENSE, some 25, some "Food", none⟩

/-- A fixed turn environment. -/
def cexEnv : TurnEnv := ⟨"u1", "a1", 0, 0⟩

/-- A store whose three keys are present and empty. -/
def cexStoreEmpty : Store := ⟨some [], some [], some []⟩

/-- An advice collaborator returning the text "ok". -/
def cexCollabOk : AdviceCollab := fun _ _ => .ok (some "ok")

/-- One expense at 00:00 UTC of 1970-01-02: in a zone 180 minutes west of
UTC (the pt-BR zone the code's locale suggests) its local calendar day is
still 1970-01-01. -/
def cexDayTx : Transaction := ⟨"t1", 1440, .EXPENSE, 10, "Food", some "x"⟩

/-- A budget whose limit is zero, matching category "Food"
case-insensitively. -/
def cexZeroBudget : Budget := ⟨"1", "food", 0, .MONTHLY, none⟩

/-- The expense persisted against `cexZeroBudget`. -/
def cexZeroTx : Transaction := ⟨"t2", 0, .EXPENSE, 25, "Food", some "c"⟩

/-- Spec §8 scenario 2: a Food budget with limit 100. -/
def wBudgetFood : Budget := ⟨"1", "Food", 100, .MONTHLY, none⟩

/-- A pre-existing Food expense of 125. -/
def wTxFood1 : Transaction := ⟨"x1", 0, .EXPENSE, 125, "Food", some "a"⟩

/-- The newly persisted Food expense of 25 (total spend 150). -/
def wTxFood2 : Transaction := ⟨"x2", 0, .EXPENSE, 25, "Food", some "b"⟩

/-- The store holding `wTxFood1` before the turn. -/
def wStoreFood : Store := ⟨some [wTxFood1], some [wBudgetFood], some []⟩

/-- A capture state in the middle of a recording (recorder 0 tracked). -/
def cexRecState : CapState := ⟨true, false, some 0, 1, 0⟩

/-- The playback trace in which a second playback request arrives while the
first request's synthesis is still pending, and both syntheses then return
audio: press play on message m1, press play on m2 right after, then both
`generateSpeech` calls resolve. -/
def doubleStreamTrace : List PBEvent :=
  [.request "m1", .request "m2", .synth 0 true, .synth 1 true]

/-- A store with two transactions, two budgets and two goals, for the
update-operation witnesses. -/
def wStoreUpd : Store :=
  ⟨some [⟨"t1", 0, .EXPENSE, 10, "A", some "a"⟩,
         ⟨"t2", 0, .INCOME, 20, "B", some "b"⟩],
   some [⟨"b1", "A", 100, .MONTHLY, none⟩, ⟨"b2", "B", 200, .WEEKLY, none⟩],
   some [⟨"g1", "G1", 50, 5, none⟩, ⟨"g2", "G2", 60, 6, none⟩]⟩

/-- A replacement for transaction "t2". -/
def wTxUpd : Transaction := ⟨"t2", 7, .EXPENSE, 99, "C", some "c"⟩

/-- A transaction whose id appears nowhere in `wStoreUpd`. -/
def wTxAbsent : Transaction := ⟨"zz", 7, .EXPENSE, 99, "C", some "c"⟩

/-- A replacement for budget "b1". -/
def wBudgetUpd : Budget := ⟨"b1", "A2", 150, .YEARLY, none⟩

/-- A budget whose id appears nowhere in `wStoreUpd`. -/
def wBudgetAbsent : Budget := ⟨"zz", "A2", 150, .YEARLY, none⟩

/-- A replacement for goal "g2". -/
def wGoalUpd : Goal := ⟨"g2", "G2x", 70, 7, none⟩

/-- A goal whose id appears nowhere in `wStoreUpd`. -/
def wGoalAbsent : Goal := ⟨"zz", "G2x", 70, 7, none⟩

/-! ### Helper lemmas: association lists -/

theorem alookup_eq_none {κ β : Type} [DecidableEq κ] (k : κ)
    (m : List (κ × β)) : alookup k m = none ↔ k ∉ m.map Prod.fst := by
  induction m with
  | nil => simp [alookup]
  | cons p rest ih =>
      obtain ⟨k', v⟩ := p
      by_cases h : k' = k
      · subst h; simp [alookup]
      · have h2 : k ≠ k' := Ne.symm h
        simp [alookup, h, ih, h2]

theorem alookup_isSome_iff {κ β : Type} [DecidableEq κ] (k : κ)
    (m : List (κ × β)) : (alookup k m).isSome ↔ k ∈ m.map Prod.fst := by
  rw [Option.isSome_iff_ne_none, Ne, alookup_eq_none, not_not]

theorem alookup_upsertAdd_self {κ : Type} [DecidableEq κ] (k : κ) (v : ℚ)
    (m : List (κ × ℚ)) :
    alookup k (upsertAdd k v m) = some ((alookup k m).getD 0 + v) := by
  induction m with
  | nil => simp [alookup, upsertAdd]
  | cons p rest ih =>
      obtain ⟨k', v'⟩ := p
      by_cases h : k' = k
      · subst h; simp [alookup, upsertAdd]
      · simp [alookup, upsertAdd, h, ih]

theorem alookup_upsertAdd_ne {κ : Type} [DecidableEq κ] {k' k : κ} (v : ℚ)
    (m : List (κ × ℚ)) (h : k' ≠ k) :
    alookup k' (upsertAdd k v m) = alookup k' m := by
  induction m with
  | nil => simp [alookup, upsertAdd, Ne.symm h]
  | cons p rest ih =>
      obtain ⟨k0, v0⟩ := p
      by_cases h0 : k0 = k
      · subst h0; simp [alookup, upsertAdd, Ne.symm h]
      · by_cases h1 : k0 = k'
        · subst h1; simp [alookup, upsertAdd, h0]
        · simp [alookup, upsertAdd, h0, h1, ih]

theorem keys_upsertAdd {κ : Type} [DecidableEq κ] (k : κ) (v : ℚ)
    (m : List (κ × ℚ)) :
    (upsertAdd k v m).map Prod.fst =
      if k ∈ m.map Prod.fst then m.map Prod.fst else m.map Prod.fst ++ [k] := by
  induction m with
  | nil => simp [upsertAdd]
  | cons p rest ih =>
      obtain ⟨k', v'⟩ := p
      by_cases h : k' = k
      · subst h; simp [upsertAdd]
      · by_cases hm : k ∈ rest.map Prod.fst <;>
          simp [upsertAdd, h, Ne.symm h, hm, ih]

theorem nodup_keys_upsertAdd {κ : Type} [DecidableEq κ] (k : κ) (v : ℚ)
    (m : List (κ × ℚ)) (hn : (m.map Prod.fst).Nodup) :
    ((upsertAdd k v m).map Prod.fst).Nodup := by
  rw [keys_upsertAdd]
  by_cases hm : k ∈ m.map Prod.fst
  · simpa [hm] using hn
  · simp [hm, List.nodup_append, hn]

theorem sndSum_upsertAdd {κ : Type} [DecidableEq κ] (k : κ) (v : ℚ)
    (m : List (κ × ℚ)) :
    ((upsertAdd k v m).map Prod.snd).sum = (m.map Prod.snd).sum + v := by
  induction m with
  | nil => simp [upsertAdd]
  | cons p rest ih =>
      obtain ⟨k', v'⟩ := p
      by_cases h : k' = k
      · subst h; simp [upsertAdd, add_assoc, add_comm]
      · simp [upsertAdd, h, ih, add_assoc]

/-! ### Helper lemmas: the aggregation fold -/

theorem summaryStep_totalIncome (o : ℤ) (acc : SummaryAcc) (t : Transaction) :
    (summaryStep o acc t).totalIncome =
      acc.totalIncome + (if t.type = .INCOME then t.amount else 0) := by
  cases h : t.type <;> simp [summaryStep, h]

theorem summaryStep_totalExpense (o : ℤ) (acc : SummaryAcc) (t : Transaction) :
    (summaryStep o acc t).totalExpense =
      acc.totalExpense + (if t.type = .EXPENSE then t.amount else 0) := by
  cases h : t.type <;> simp [summaryStep, h]

theorem summaryStep_categoryMap (o : ℤ) (acc : SummaryAcc) (t : Transaction) :
    (summaryStep o acc t).categoryMap =
      if t.type = .EXPENSE then upsertAdd t.category t.amount acc.categoryMap
      else acc.categoryMap := by
  cases h : t.type <;> simp [summaryStep, h]

theorem summaryStep_dailyData (o : ℤ) (acc : SummaryAcc) (t : Transaction) :
    (summaryStep o acc t).dailyData =
      if t.type = .EXPENSE then upsertAdd (dayKey t) t.amount acc.dailyData
      else acc.dailyData := by
  cases h : t.type <;> simp [summaryStep, h]

theorem specIncomeSum_cons (t : Transaction) (ts : List Transaction) :
    specIncomeSum (t :: ts) =
      (if t.type = .INCOME then t.amount else 0) + specIncomeSum ts := by
  by_cases h : t.type = TransactionType.INCOME <;>
    simp [specIncomeSum, List.filter_cons, h]

theorem specExpenseSum_cons (t : Transaction) (ts : List Transaction) :
    specExpenseSum (t :: ts) =
      (if t.type = .EXPENSE then t.amount else 0) + specExpenseSum ts := by
  by_cases h : t.type = TransactionType.EXPENSE <;>
    simp [specExpenseSum, List.filter_cons, h]

theorem expSumOnDay_cons (k : ℤ) (t : Transaction) (ts : List Transaction) :
    expSumOnDay k (t :: ts) =
      (if t.type = .EXPENSE ∧ dayKey t = k then t.amount else 0) +
        expSumOnDay k ts := by
  by_cases h : t.type = TransactionType.EXPENSE ∧ dayKey t = k <;>
    simp [expSumOnDay, List.filter_cons, h]

theorem foldl_totalIncome (o : ℤ) (txs : List Transaction) :
    ∀ acc : SummaryAcc,
      (txs.foldl (summaryStep o) acc).totalIncome =
        acc.totalIncome + specIncomeSum txs := by
  induction txs with
  | nil => intro acc; simp [specIncomeSum]
  | cons t ts ih =>
      intro acc
      rw [List.foldl_cons, ih, summaryStep_totalIncome, specIncomeSum_cons,
        add_assoc]

theorem foldl_totalExpense (o : ℤ) (txs : List Transaction) :
    ∀ acc : SummaryAcc,
      (txs.foldl (summaryStep o) acc).totalExpense =
        acc.totalExpense + specExpenseSum txs := by
  induction txs with
  | nil => intro acc; simp [specExpenseSum]
  | cons t ts ih =>
      intro acc
      rw [List.foldl_cons, ih, summaryStep_totalExpense, specExpenseSum_cons,
        add_assoc]

theorem foldl_catSum (o : ℤ) (txs : List Transaction) :
    ∀ acc : SummaryAcc,
      (((txs.foldl (summaryStep o) acc).categoryMap).map Prod.snd).sum =
        ((acc.categoryMap).map Prod.snd).sum + specExpenseSum txs := by
  induction txs with
  | nil => intro acc; simp [specExpenseSum]
  | cons t ts ih =>
      intro acc
      rw [List.foldl_cons, ih, summaryStep_categoryMap, specExpenseSum_cons]
      by_cases h : t.type = TransactionType.EXPENSE <;>
        simp [h, sndSum_upsertAdd, add_assoc]

theorem foldl_dailyVal (o k : ℤ) (txs : List Transaction) :
    ∀ acc : SummaryAcc,
      (alookup k (txs.foldl (summaryStep o) acc).dailyData).getD 0 =
        (alookup k acc.dailyData).getD 0 + expSumOnDay k txs := by
  induction txs with
  | nil => intro acc; simp [expSumOnDay]
  | cons t ts ih =>
      intro acc
      rw [List.foldl_cons, ih, summaryStep_dailyData, expSumOnDay_cons]
      by_cases he : t.type = TransactionType.EXPENSE
      · by_cases hk : dayKey t = k
        · subst hk
          simp [he, alookup_upsertAdd_self, add_assoc]
        · simp [he, hk, alookup_upsertAdd_ne _ _ (Ne.symm hk)]
      · simp [he]

theorem foldl_daily_isSome (o k : ℤ) (txs : List Transaction) :
    ∀ acc : SummaryAcc,
      (alookup k (txs.foldl (summaryStep o) acc).dailyData).isSome ↔
        ((alookup k acc.dailyData).isSome ∨
          ∃ t ∈ txs, t.type = .EXPENSE ∧ dayKey t = k) := by
  induction txs with
  | nil => intro acc; simp
  | cons t ts ih =>
      intro acc
      rw [List.foldl_cons, ih, summaryStep_dailyData]
      by_cases he : t.type = TransactionType.EXPENSE
      · by_cases hk : dayKey t = k
        · subst hk
          simp [he, alookup_upsertAdd_self]
        · simp [he, hk, alookup_upsertAdd_ne _ _ (Ne.symm hk)]
      · simp [he]

theorem foldl_daily_nodupKeys (o : ℤ) (txs : List Transaction) :
    ∀ acc : SummaryAcc, ((acc.dailyData).map Prod.fst).Nodup →
      (((txs.foldl (summaryStep o) acc).dailyData).map Prod.fst).Nodup := by
  induction txs with
  | nil => intro acc h; simpa using h
  | cons t ts ih =>
      intro acc h
      rw [List.foldl_cons]
      refine ih _ ?_
      rw [summaryStep_dailyData]
      by_cases he : t.type = TransactionType.EXPENSE
      · simpa [he] using nodup_keys_upsertAdd _ _ _ h
      · simpa [he] using h

theorem pairwise_lt_of_sorted_nodup (l : List ℤ)
    (hs : List.Sorted (· ≤ ·) l) (hn : l.Nodup) :
    List.Pairwise (· < ·) l := by
  induction l with
  | nil => exact List.Pairwise.nil
  | cons a l ih =>
      rw [List.sorted_cons] at hs
      rw [List.nodup_cons] at hn
      exact List.Pairwise.cons
        (fun b hb => lt_of_le_of_ne (hs.1 b hb)
          (fun e => hn.1 (e ▸ hb)))
        (ih hs.2 hn.2)

/-! ### Claim theorems -/

/-- C1: for every transaction collection, the summary produced by
`calculateSummary` satisfies: `totalIncome` is the sum of amounts of
INCOME transactions, `totalExpense` the sum of amounts of EXPENSE
transactions, `balance = totalIncome - totalExpense`, and the values of
`expensesByCategory` sum to `totalExpense`. -/
theorem summary_totals (offset : ℤ) (txs : List Transaction) :
    (calculateSummary offset txs).totalIncome = specIncomeSum txs
    ∧ (calculateSummary offset txs).totalExpense = specExpenseSum txs
    ∧ (calculateSummary offset txs).balance =
        (calculateSummary offset txs).totalIncome -
          (calculateSummary offset txs).totalExpense
    ∧ ((calculateSummary offset txs).expensesByCategory.map
          CategoryEntry.value).sum =
        (calculateSummary offset txs).totalExpense := by
  refine ⟨?_, ?_, ?_, ?_⟩
  · simp [calculateSummary, foldl_totalIncome]
  · simp [calculateSummary, foldl_totalExpense]
  · rfl
  · simp only [calculateSummary, List.map_map]
    have : (CategoryEntry.value ∘ fun p : String × ℚ => CategoryEntry.mk p.1 p.2)
        = Prod.snd := rfl
    rw [this, foldl_catSum, foldl_totalExpense]
    simp

theorem expSumOnDay_pos (k : ℤ) (txs : List Transaction)
    (hpos : ∀ t ∈ txs, 0 < t.amount)
    (h : ∃ t ∈ txs, t.type = .EXPENSE ∧ dayKey t = k) :
    0 < expSumOnDay k txs := by
  obtain ⟨t, ht, he, hk⟩ := h
  have htf : t ∈ txs.filter
      (fun t => decide (t.type = TransactionType.EXPENSE ∧ dayKey t = k)) := by
    simp [List.mem_filter, ht, he, hk]
  have hmem : t.amount ∈ (txs.filter
      (fun t => decide (t.type = TransactionType.EXPENSE ∧ dayKey t = k))).map
        Transaction.amount := List.mem_map_of_mem _ htf
  refine List.sum_pos _ (fun x hx => ?_) (List.ne_nil_of_mem hmem)
  obtain ⟨u, hu, rfl⟩ := List.mem_map.mp hx
  exact hpos u (List.mem_of_mem_filter hu)

/-- C3 (counterexample): `dailyExpenses` does not group by the local
calendar day of the timestamp.  In the zone 180 minutes west of UTC, the
expense `cexDayTx` (midnight UTC of 1970-01-02) falls on local day
1970-01-01, but the code keys it by the UTC day of `toISOString`. -/
theorem dailyExpenses_not_grouped_by_local_day :
    (calculateSummary (-180) [cexDayTx]).dailyExpenses ≠
      specDailyExpensesLocal (-180) [cexDayTx] := by
  decide

/-- C3 (amended): `dailyExpenses` groups EXPENSE transactions by the UTC
calendar day of their timestamp (the `toISOString` date, not the local
date), summing amounts per day; the result is strictly ascending in the
underlying day key, each entry carries the raw sortable key and the
`dd/mm` display label derived from it, and — when all amounts are positive,
as the Transaction invariant demands — no entry has a zero amount, and a
day has an entry exactly when some expense falls on it. -/
theorem dailyExpenses_utc_grouping (offset : ℤ) (txs : List Transaction)
    (hpos : ∀ t ∈ txs, 0 < t.amount) :
    List.Pairwise (fun a b => a.originalDate < b.originalDate)
        (calculateSummary offset txs).dailyExpenses
    ∧ (∀ e ∈ (calculateSummary offset txs).dailyExpenses,
        e.amount = expSumOnDay e.originalDate txs
        ∧ 0 < e.amount
        ∧ e.date = dayLabel e.originalDate)
    ∧ (∀ k : ℤ,
        (∃ e ∈ (calculateSummary offset txs).dailyExpenses,
          e.originalDate = k) ↔
        (∃ t ∈ txs, t.type = .EXPENSE ∧ dayKey t = k)) := by
  simp only [calculateSummary]
  set acc := txs.foldl (summaryStep offset) ⟨0, 0, [], [], []⟩ with hacc
  set keys := acc.dailyData.map Prod.fst with hkeys
  set sk := List.insertionSort (· ≤ ·) keys with hsk
  have hperm : sk.Perm keys := List.perm_insertionSort _ _
  have hnodup : keys.Nodup := by
    rw [hkeys, hacc]
    exact foldl_daily_nodupKeys offset txs _ (by simp)
  have hsknodup : sk.Nodup := (hperm.nodup_iff).mpr hnodup
  have hsorted : List.Sorted (· ≤ ·) sk := List.sorted_insertionSort _ _
  have hpw : List.Pairwise (· < ·) sk :=
    pairwise_lt_of_sorted_nodup _ hsorted hsknodup
  have hmem : ∀ k : ℤ, k ∈ keys ↔
      ∃ t ∈ txs, t.type = .EXPENSE ∧ dayKey t = k := by
    intro k
    rw [hkeys, ← alookup_isSome_iff, hacc]
    rw [foldl_daily_isSome offset k txs]
    simp [alookup]
  have hval : ∀ k : ℤ,
      (alookup k acc.dailyData).getD 0 = expSumOnDay k txs := by
    intro k
    rw [hacc, foldl_dailyVal offset k txs]
    simp [alookup]
  refine ⟨?_, ?_, ?_⟩
  · rw [List.pairwise_map]
    exact hpw
  · intro e he
    obtain ⟨k, hk, rfl⟩ := List.mem_map.mp he
    refine ⟨hval k, ?_, rfl⟩
    rw [hval k]
    exact expSumOnDay_pos k txs hpos ((hmem k).mp (hperm.mem_iff.mp hk))
  · intro k
    rw [← hmem k, ← hperm.mem_iff]
    constructor
    · rintro ⟨e, he, hek⟩
      obtain ⟨k', hk', rfl⟩ := List.mem_map.mp he
      simpa using hek ▸ hk'
    · intro hk
      exact ⟨_, List.mem_map_of_mem _ hk, rfl⟩

/-- Witness for `dailyExpenses_utc_grouping` at the spec §8 scenario-1
expense set. -/
theorem dailyExpenses_utc_grouping_witness :
    List.Pairwise (fun a b => a.originalDate < b.originalDate)
      (calculateSummary 0 [cexDayTx]).dailyExpenses :=
  (dailyExpenses_utc_grouping 0 [cexDayTx] (by decide)).1

/-- The advice fallback is total: for whatever outcome the collaborator
produces, `generateFinancialAdvice` returns a non-empty string. -/
theorem generateFinancialAdvice_ne_empty (collab : AdviceCollab)
    (t : Transaction) (st : BudgetStatusMsg) :
    generateFinancialAdvice collab t st ≠ "" := by
  unfold generateFinancialAdvice
  cases hc : collab t st with
  | error e =>
      show "Transação registrada." ≠ ""
      decide
  | ok o =>
      cases o with
      | none =>
          show "Transação registrada com sucesso." ≠ ""
          decide
      | some s =>
          by_cases hs : s = ""
          · simp [hs]
          · simp [hs]

/-- C2 (counterexample): a parse result missing the required field
`description` (type, amount and category present and truthy) is not
rejected: the turn persists it — the transaction count grows from 0 to
1 — and the appended assistant message is the advice reply, not the
clarification. -/
theorem missing_description_still_persists :
    cexParsed.description = none
    ∧ (handleSendMessage cexEnv 0 [] cexStoreEmpty [] "t" (some cexParsed)
        cexCollabOk).1 ≠ cexStoreEmpty
    ∧ (getTransactions (handleSendMessage cexEnv 0 [] cexStoreEmpty [] "t"
        (some cexParsed) cexCollabOk).1).length = 1
    ∧ (handleSendMessage cexEnv 0 [] cexStoreEmpty [] "t" (some cexParsed)
        cexCollabOk).2 =
        [userMsgOf cexEnv "t", ⟨"a1", .assistant, "ok", 0, some "tx-1"⟩] := by
  refine ⟨rfl, by decide, by decide, by decide⟩

/-- C2 (amended): whenever the parse fails or one of the fields the
orchestrator checks — kind, amount, category, by JS truthiness — is
missing (or zero / empty), the turn appends exactly one clarification
assistant message after the user's message and persists nothing: the store,
and hence its transaction count, is unchanged.  (`description` and `date`
are not part of the check.) -/
theorem invalid_parse_appends_clarification_only (env : TurnEnv) (offset : ℤ)
    (budgets : List Budget) (store : Store) (msgs : List ChatMessage)
    (text : String) (parseResult : Option ParsedTransaction)
    (collab : AdviceCollab) (h : parsedCheck parseResult = false) :
    handleSendMessage env offset budgets store msgs text parseResult collab =
      (store, msgs ++ [userMsgOf env text,
        ⟨env.aiMsgId, .assistant, clarificationText, env.aiNow, none⟩]) := by
  cases parseResult with
  | none => simp [handleSendMessage, parsedCheck]
  | some p => simp [handleSendMessage, h]

/-- Witness for `invalid_parse_appends_clarification_only` at a null parse
result. -/
theorem invalid_parse_appends_clarification_only_witness :
    handleSendMessage cexEnv 0 [] cexStoreEmpty [] "oi" none cexCollabOk =
      (cexStoreEmpty, [userMsgOf cexEnv "oi",
        ⟨"a1", .assistant, clarificationText, 0, none⟩]) :=
  invalid_parse_appends_clarification_only cexEnv 0 [] cexStoreEmpty [] "oi"
    none cexCollabOk (by decide)

/-- C4: for a turn persisting an EXPENSE transaction with a matching
budget, writing `spent` for the category's value in the freshly recomputed
summary (`summ`, the summary of the store right after the add): the status
percentage is `round (spent / limit * 100)`, the status is the over-budget
tier exactly when `remaining = limit - spent < 0`, the over-budget tier
carries the overage `|remaining|`, the spend and the percentage, and the
within-budget tier carries the spend, the limit, the percentage and the
remaining amount.  (`limit ≠ 0` per the positive-limit Budget invariant;
see the C5 theorems for `limit ≤ 0`.) -/
theorem budget_status_formula (offset : ℤ) (store : Store)
    (budgets : List Budget) (tx : Transaction) (b : Budget)
    (summ : FinancialSummary)
    (_hsumm : summ = calculateSummary offset
      (getTransactions (addTransaction tx store)))
    (hexp : tx.type = .EXPENSE)
    (hfind : findBudget budgets tx.category = some b)
    (hlim : b.limit ≠ 0) :
    statusPercentage (computeBudgetStatus budgets summ tx) =
      some (some (round (categorySpend summ tx.category / b.limit * 100)))
    ∧ (statusIsOverBudget (computeBudgetStatus budgets summ tx) = true ↔
        b.limit - categorySpend summ tx.category < 0)
    ∧ (b.limit - categorySpend summ tx.category < 0 →
        computeBudgetStatus budgets summ tx =
          .overBudget |b.limit - categorySpend summ tx.category|
            (categorySpend summ tx.category)
            (some (round (categorySpend summ tx.category / b.limit * 100))))
    ∧ (¬ b.limit - categorySpend summ tx.category < 0 →
        computeBudgetStatus budgets summ tx =
          .withinBudget (categorySpend summ tx.category) b.limit
            (some (round (categorySpend summ tx.category / b.limit * 100)))
            (b.limit - categorySpend summ tx.category)) := by
  have hcbs : computeBudgetStatus budgets summ tx =
      if b.limit - categorySpend summ tx.category < 0 then
        BudgetStatusMsg.overBudget |b.limit - categorySpend summ tx.category|
          (categorySpend summ tx.category)
          (some (round (categorySpend summ tx.category / b.limit * 100)))
      else
        BudgetStatusMsg.withinBudget (categorySpend summ tx.category) b.limit
          (some (round (categorySpend summ tx.category / b.limit * 100)))
          (b.limit - categorySpend summ tx.category) := by
    unfold computeBudgetStatus
    rw [hfind]
    simp [hexp, jsRoundPct, hlim]
  by_cases hr : b.limit - categorySpend summ tx.category < 0 <;>
    simp [hcbs, hr, statusPercentage, statusIsOverBudget]

/-- Witness for `budget_status_formula` at spec §8 scenario 2: Food budget
limit 100, fresh spend 150 after persisting a 25 expense on top of 125. -/
theorem budget_status_formula_witness :
    statusIsOverBudget (computeBudgetStatus [wBudgetFood]
      (calculateSummary 0 (getTransactions (addTransaction wTxFood2
        wStoreFood))) wTxFood2) = true ↔
      wBudgetFood.limit - categorySpend (calculateSummary 0
        (getTransactions (addTransaction wTxFood2 wStoreFood)))
        wTxFood2.category < 0 :=
  (budget_status_formula 0 wStoreFood [wBudgetFood] wTxFood2 wBudgetFood _
    rfl rfl (by decide) (by decide)).2.1

/-- C5 (counterexample): with a matching budget of limit 0 the orchestrator
does not clamp the limit: the division runs unguarded and the resulting
percentage is non-finite (`none`, the embedded Infinity/NaN) rather than
any clamped value — the over-budget tier is reached only because
`remaining = 0 - 25 < 0`. -/
theorem zero_limit_division_not_clamped :
    computeBudgetStatus [cexZeroBudget] (calculateSummary 0 [cexZeroTx])
        cexZeroTx = .overBudget 25 25 none
    ∧ statusPercentage (computeBudgetStatus [cexZeroBudget]
        (calculateSummary 0 [cexZeroTx]) cexZeroTx) = some none := by
  have hspent : categorySpend (calculateSummary 0 [cexZeroTx])
      cexZeroTx.category = 25 := by decide
  have hfind : findBudget [cexZeroBudget] cexZeroTx.category =
      some cexZeroBudget := by decide
  have h : computeBudgetStatus [cexZeroBudget] (calculateSummary 0 [cexZeroTx])
      cexZeroTx = .overBudget 25 25 none := by
    unfold computeBudgetStatus
    rw [hfind]
    simp only [show cexZeroTx.type = TransactionType.EXPENSE from rfl, hspent,
      show cexZeroBudget.limit = (0 : ℚ) from rfl, jsRoundPct, if_pos rfl]
    norm_num
  exact ⟨h, by rw [h]; rfl⟩

/-- C5 (amended): there is no clamp — with a zero or negative matched
limit the division is performed unguarded, so a zero limit yields a
non-finite (undefined) percentage — but whenever the category has positive
spend (as it does right after persisting the expense) the remaining amount
`limit - spent` is negative, so the case is still reported as the
over-budget tier; nothing throws. -/
theorem nonpositive_limit_reports_over_budget (budgets : List Budget)
    (summ : FinancialSummary) (tx : Transaction) (b : Budget)
    (hexp : tx.type = .EXPENSE)
    (hfind : findBudget budgets tx.category = some b)
    (hlim : b.limit ≤ 0)
    (hspent : 0 < categorySpend summ tx.category) :
    statusIsOverBudget (computeBudgetStatus budgets summ tx) = true
    ∧ (b.limit = 0 →
        statusPercentage (computeBudgetStatus budgets summ tx) = some none) := by
  have hr : b.limit - categorySpend summ tx.category < 0 := by linarith
  have hcbs : computeBudgetStatus budgets summ tx =
      BudgetStatusMsg.overBudget |b.limit - categorySpend summ tx.category|
        (categorySpend summ tx.category)
        (jsRoundPct (categorySpend summ tx.category) b.limit) := by
    unfold computeBudgetStatus
    rw [hfind]
    simp [hexp, hr]
  refine ⟨by simp [hcbs, statusIsOverBudget], fun h0 => ?_⟩
  simp [hcbs, statusPercentage, jsRoundPct, h0]

/-- Witness for `nonpositive_limit_reports_over_budget` at the zero-limit
Food scenario. -/
theorem nonpositive_limit_reports_over_budget_witness :
    statusIsOverBudget (computeBudgetStatus [cexZeroBudget]
      (calculateSummary 0 [cexZeroTx]) cexZeroTx) = true :=
  (nonpositive_limit_reports_over_budget [cexZeroBudget]
    (calculateSummary 0 [cexZeroTx]) cexZeroTx cexZeroBudget rfl (by decide)
    (by decide) (by decide)).1

/-- C6 (failing trace): request playback of m1, then of m2 while m1's
synthesis is still pending, then let both syntheses return audio.  The
second request's `stopAudio` runs while no source node exists yet, and the
post-`await` continuation never re-checks the active message, so both
nodes are started and never stopped: two playback streams are active at
once, violating the exclusivity the claim states. -/
theorem overlapping_requests_double_playback :
    (pbRun doubleStreamTrace).activeNodes = [0, 1]
    ∧ (pbRun doubleStreamTrace).activeNodes.length = 2 := by
  refine ⟨by decide, by decide⟩

/-- C7 (counterexample): invoking `startRecording` while already Recording
is not a no-op: with the permission granted it changes the state, creating
and tracking a fresh recorder in place of the running one. -/
theorem startRecording_while_recording_creates_new_recorder :
    cexRecState.isRecording = true
    ∧ startRecording cexRecState true ≠ cexRecState
    ∧ (startRecording cexRecState true).recorder ≠ cexRecState.recorder := by
  refine ⟨rfl, by decide, by decide⟩

/-- C7 (amended): stop-recording while Idle is a no-op; start-recording
itself carries no already-Recording guard (see the counterexample), but the
controller's mic toggle dispatches stop-recording — never start-recording —
whenever the state is Recording. -/
theorem capture_noop_stop_and_toggle :
    (∀ s : CapState, s.isRecording = false → stopRecording s = s)
    ∧ (∀ (s : CapState) (perm : Bool), s.isRecording = true →
        micToggle s perm = stopRecording s) := by
  constructor
  · intro s h
    simp [stopRecording, h]
  · intro s perm h
    simp [micToggle, h]

/-- Witness for `capture_noop_stop_and_toggle`. -/
theorem capture_noop_stop_and_toggle_witness :
    stopRecording ⟨false, false, some 0, 1, 0⟩ =
      (⟨false, false, some 0, 1, 0⟩ : CapState)
    ∧ micToggle cexRecState true = stopRecording cexRecState :=
  ⟨capture_noop_stop_and_toggle.1 _ rfl,
   capture_noop_stop_and_toggle.2 _ true rfl⟩

/-- C8: every turn that persists a transaction ends with exactly one
assistant reply, tagged with the persisted transaction's id, whose content
is the advice result; that content is never empty, and whenever the
collaborator fails, returns no text or returns the empty text, the content
is one of the two fixed confirmation strings. -/
theorem advice_step_always_replies (env : TurnEnv) (offset : ℤ)
    (budgets : List Budget) (store : Store) (msgs : List ChatMessage)
    (text : String) (p : ParsedTransaction) (collab : AdviceCollab)
    (h : parsedCheck (some p) = true) :
    (handleSendMessage env offset budgets store msgs text (some p) collab).2 =
      msgs ++ [userMsgOf env text,
        ⟨env.aiMsgId, .assistant,
          generateFinancialAdvice collab (castParsed p)
            (computeBudgetStatus budgets
              (calculateSummary offset
                (getTransactions (addTransaction (castParsed p) store)))
              (castParsed p)),
          env.aiNow, some (castParsed p).id⟩]
    ∧ generateFinancialAdvice collab (castParsed p)
        (computeBudgetStatus budgets
          (calculateSummary offset
            (getTransactions (addTransaction (castParsed p) store)))
          (castParsed p)) ≠ ""
    ∧ (∀ (t : Transaction) (st : BudgetStatusMsg),
        (collab t st = .error () ∨ collab t st = .ok none ∨
          collab t st = .ok (some "")) →
        (generateFinancialAdvice collab t st = "Transação registrada." ∨
          generateFinancialAdvice collab t st =
            "Transação registrada com sucesso.")) := by
  refine ⟨?_, generateFinancialAdvice_ne_empty collab _ _, ?_⟩
  · simp [handleSendMessage, h]
  · intro t st hc
    rcases hc with hc | hc | hc <;> simp [generateFinancialAdvice, hc]

/-- Witness for `advice_step_always_replies`. -/
theorem advice_step_always_replies_witness :
    generateFinancialAdvice cexCollabOk (castParsed cexParsed)
      (computeBudgetStatus []
        (calculateSummary 0
          (getTransactions (addTransaction (castParsed cexParsed)
            cexStoreEmpty)))
        (castParsed cexParsed)) ≠ "" :=
  (advice_step_always_replies cexEnv 0 [] cexStoreEmpty [] "t" cexParsed
    cexCollabOk (by decide)).2.1

/-- C9: after `resetData` all three collections read back empty, all three
keys are present (overwritten with empty values, not removed), and a
subsequent `seedData` run leaves the store exactly as it is — no
reseeding. -/
theorem reset_clears_all_and_blocks_reseed (s : Store) (y m0 : ℤ) :
    getTransactions (resetData s) = []
    ∧ getBudgets (resetData s) = []
    ∧ getGoals (resetData s) = []
    ∧ (resetData s).transactions = some []
    ∧ (resetData s).budgets = some []
    ∧ (resetData s).goals = some []
    ∧ seedData y m0 (resetData s) = resetData s :=
  ⟨rfl, rfl, rfl, rfl, rfl, rfl, rfl⟩

theorem findIndex_eq_none {α : Type} (p : α → Bool) (l : List α)
    (h : ∀ a ∈ l, p a = false) : findIndex p l = none := by
  induction l with
  | nil => rfl
  | cons a l ih =>
      simp [findIndex, h a (List.mem_cons_self a l),
        ih fun b hb => h b (List.mem_cons_of_mem a hb)]

theorem findIndex_some_get {α : Type} (p : α → Bool) (l : List α) (i : ℕ)
    (h : findIndex p l = some i) : ∃ a, l[i]? = some a ∧ p a = true := by
  induction l generalizing i with
  | nil => simp [findIndex] at h
  | cons a l ih =>
      by_cases hp : p a
      · simp [findIndex, hp] at h
        subst h
        exact ⟨a, by simp, hp⟩
      · simp [findIndex, hp] at h
        obtain ⟨j, hj, rfl⟩ := h
        simpa using ih j hj

/-- C10: for every store, the three update operations leave the store
completely unchanged when the entity's id is absent from its collection;
when the id is found (at `findIndex` position `i`), exactly that entity is
replaced — the collection becomes `set i`, the element at `i` carried the
sought id, the length and every other position are untouched — and the
other two collections are untouched. -/
theorem update_operations_frame :
    (∀ (s : Store) (t : Transaction),
        (∀ u ∈ getTransactions s, u.id ≠ t.id) → updateTransaction t s = s)
    ∧ (∀ (s : Store) (t : Transaction) (i : ℕ),
        findIndex (fun u => u.id = t.id) (getTransactions s) = some i →
          getTransactions (updateTransaction t s) = (getTransactions s).set i t
          ∧ (∃ u, (getTransactions s)[i]? = some u ∧ u.id = t.id)
          ∧ ((getTransactions s).set i t).length = (getTransactions s).length
          ∧ (∀ j : ℕ, j ≠ i →
              ((getTransactions s).set i t)[j]? = (getTransactions s)[j]?)
          ∧ (updateTransaction t s).budgets = s.budgets
          ∧ (updateTransaction t s).goals = s.goals)
    ∧ (∀ (s : Store) (b : Budget),
        (∀ u ∈ getBudgets s, u.id ≠ b.id) → updateBudget b s = s)
    ∧ (∀ (s : Store) (b : Budget) (i : ℕ),
        findIndex (fun u => u.id = b.id) (getBudgets s) = some i →
          getBudgets (updateBudget b s) = (getBudgets s).set i b
          ∧ (∃ u, (getBudgets s)[i]? = some u ∧ u.id = b.id)
          ∧ ((getBudgets s).set i b).length = (getBudgets s).length
          ∧ (∀ j : ℕ, j ≠ i →
              ((getBudgets s).set i b)[j]? = (getBudgets s)[j]?)
          ∧ (updateBudget b s).transactions = s.transactions
          ∧ (updateBudget b s).goals = s.goals)
    ∧ (∀ (s : Store) (g : Goal),
        (∀ u ∈ getGoals s, u.id ≠ g.id) → updateGoal g s = s)
    ∧ (∀ (s : Store) (g : Goal) (i : ℕ),
        findIndex (fun u => u.id = g.id) (getGoals s) = some i →
          getGoals (updateGoal g s) = (getGoals s).set i g
          ∧ (∃ u, (getGoals s)[i]? = some u ∧ u.id = g.id)
          ∧ ((getGoals s).set i g).length = (getGoals s).length
          ∧ (∀ j : ℕ, j ≠ i →
              ((getGoals s).set i g)[j]? = (getGoals s)[j]?)
          ∧ (updateGoal g s).transactions = s.transactions
          ∧ (updateGoal g s).budgets = s.budgets) := by
  refine ⟨?_, ?_, ?_, ?_, ?_, ?_⟩
  · intro s t h
    unfold updateTransaction
    rw [findIndex_eq_none _ _ fun a ha => by simp [h a ha]]
  · intro s t i h
    obtain ⟨u, hu, hid⟩ := findIndex_some_get _ _ _ h
    have hupd : updateTransaction t s =
        { s with transactions := some ((getTransactions s).set i t) } := by
      unfold updateTransaction
      rw [h]
    refine ⟨?_, ⟨u, hu, by simpa using hid⟩, by simp, ?_, ?_, ?_⟩
    · rw [hupd]; rfl
    · intro j hj
      exact List.getElem?_set_ne (Ne.symm hj)
    · rw [hupd]
    · rw [hupd]
  · intro s b h
    unfold updateBudget
    rw [findIndex_eq_none _ _ fun a ha => by simp [h a ha]]
  · intro s b i h
    obtain ⟨u, hu, hid⟩ := findIndex_some_get _ _ _ h
    have hupd : updateBudget b s =
        { s with budgets := some ((getBudgets s).set i b) } := by
      unfold updateBudget
      rw [h]
    refine ⟨?_, ⟨u, hu, by simpa using hid⟩, by simp, ?_, ?_, ?_⟩
    · rw [hupd]; rfl
    · intro j hj
      exact List.getElem?_set_ne (Ne.symm hj)
    · rw [hupd]
    · rw [hupd]
  · intro s g h
    unfold updateGoal
    rw [findIndex_eq_none _ _ fun a ha => by simp [h a ha]]
  · intro s g i h
    obtain ⟨u, hu, hid⟩ := findIndex_some_get _ _ _ h
    have hupd : updateGoal g s =
        { s with goals := some ((getGoals s).set i g) } := by
      unfold updateGoal
      rw [h]
    refine ⟨?_, ⟨u, hu, by simpa using hid⟩, by simp, ?_, ?_, ?_⟩
    · rw [hupd]; rfl
    · intro j hj
      exact List.getElem?_set_ne (Ne.symm hj)
    · rw [hupd]
    · rw [hupd]

/-- Witness for `update_operations_frame`: on `wStoreUpd`, updating with an
absent transaction id is the identity, and updating transaction "t2"
replaces exactly position 1. -/
theorem update_operations_frame_witness :
    updateTransaction wTxAbsent wStoreUpd = wStoreUpd
    ∧ getTransactions (updateTransaction wTxUpd wStoreUpd) =
        (getTransactions wStoreUpd).set 1 wTxUpd
    ∧ updateBudget wBudgetAbsent wStoreUpd = wStoreUpd
    ∧ getBudgets (updateBudget wBudgetUpd wStoreUpd) =
        (getBudgets wStoreUpd).set 0 wBudgetUpd
    ∧ updateGoal wGoalAbsent wStoreUpd = wStoreUpd
    ∧ getGoals (updateGoal wGoalUpd wStoreUpd) =
        (getGoals wStoreUpd).set 1 wGoalUpd :=
  ⟨update_operations_frame.1 wStoreUpd wTxAbsent (by decide),
   (update_operations_frame.2.1 wStoreUpd wTxUpd 1 (by decide)).1,
   update_operations_frame.2.2.1 wStoreUpd wBudgetAbsent (by decide),
   (update_operations_frame.2.2.2.1 wStoreUpd wBudgetUpd 0 (by decide)).1,
   update_operations_frame.2.2.2.2.1 wStoreUpd wGoalAbsent (by decide),
   (update_operations_frame.2.2.2.2.2 wStoreUpd wGoalUpd 1 (by decide)).1⟩

end FinAI
